import Mathlib

/-!
Verification development for the news_streamlit_app repository.

Texts are modelled as lists of characters (`Str`); Python string
operations (`str.lower`, substring membership via `in`, `str.count`,
`str.split`, `str.strip`) are embedded as executable functions on
`Str`.  ASCII case folding is used for `lower`, matching the
repository's data (Croatian keyword lists written in ASCII).
-/

/-- Texts are lists of characters. -/
abbrev Str := List Char

/-- Shorthand to write a `Str` literal. -/
def strL (s : String) : Str := s.toList

/-- Python `str.lower()` (per-character case folding). -/
def lowerL (s : Str) : Str := s.map Char.toLower

/-- ASCII whitespace, as recognised by Python `str.split()` / `str.strip()`. -/
def isWs (c : Char) : Bool :=
  c = ' ' || c = '\t' || c = '\n' || c = '\r' || c = '\x0b' || c = '\x0c'

/-- Python `str.split()` with no argument: split on whitespace runs,
dropping empty pieces. -/
def splitWs (s : Str) : List Str :=
  (s.splitOnP (isWs ·)).filter (· ≠ [])

/-- Python `str.strip()`: drop leading and trailing whitespace. -/
def pyStrip (s : Str) : Str :=
  ((s.dropWhile (isWs ·)).reverse.dropWhile (isWs ·)).reverse

/-- Python `" ".join(parts)`. -/
def joinSpace (parts : List Str) : Str := List.intercalate [' '] parts

/-- Python substring membership `needle in hay` for strings. -/
def isInfixL (needle : Str) : Str → Bool
  | [] => needle.isPrefixOf []
  | c :: rest => needle.isPrefixOf (c :: rest) || isInfixL needle rest

/-- Scanner for Python `str.count(sub)` with a non-empty `sub`:
scan left to right, and on a match skip past the matched occurrence
(non-overlapping count).  The fuel argument is the length of the
haystack, which bounds the number of steps. -/
def countGo (needle : Str) : Nat → Str → Nat
  | 0, _ => 0
  | _ + 1, [] => 0
  | fuel + 1, c :: rest =>
    if needle.isPrefixOf (c :: rest) then
      1 + countGo needle fuel (rest.drop (needle.length - 1))
    else
      countGo needle fuel rest

/-- Python `hay.count(needle)`: number of non-overlapping occurrences;
an empty needle is counted `len(hay) + 1` times, as in Python. -/
def pyCount (hay needle : Str) : Nat :=
  if needle.isEmpty then hay.length + 1 else countGo needle hay.length hay

/-- `max(0, 5 - max(0, ref_date - published_at))`: the recency bonus
computed at the end of both `presscut_score` variants
(src/app.py lines 321-326, src/report.py lines 205-208).  Dates are
modelled as day numbers, so `ref_date - published_at` is
`(ref_date - published_at.date()).days`. -/
def recency_bonus (published_at ref_date : Int) : Int :=
  let age_days := ref_date - published_at
  let age_days := if age_days < 0 then 0 else age_days
  max 0 (5 - age_days)

/-- The exclude test of `presscut_score`: some exclude phrase occurs
(lower-cased) in the lowered title or lowered summary. -/
def excludeHit (t_title t_summary : Str) (exclude : List Str) : Bool :=
  exclude.any fun w => isInfixL (lowerL w) t_title || isInfixL (lowerL w) t_summary

/-- The must-have test of `presscut_score`: some must-have phrase is
missing from both the lowered title and the lowered summary. -/
def mustMissing (t_title t_summary : Str) (must_have : List Str) : Bool :=
  must_have.any fun w => !isInfixL (lowerL w) t_title && !isInfixL (lowerL w) t_summary

/-- Weighted accumulation of one phrase group in `presscut_score`:
`occurrences_in_title * w_title + occurrences_in_summary * w_summary`,
summed over the group's phrases. -/
def groupScore (t_title t_summary : Str) (ws : List Str) (w_title w_summary : Int) : Int :=
  ws.foldl
    (fun acc w =>
      acc + (pyCount t_title (lowerL w) : Int) * w_title
          + (pyCount t_summary (lowerL w) : Int) * w_summary)
    0

/-- Hit flag of one phrase group in `presscut_score` (`base_hit` /
`nice_hit`): some phrase of the group occurs in the lowered title or
lowered summary. -/
def groupHit (t_title t_summary : Str) (ws : List Str) : Bool :=
  ws.any fun w => pyCount t_title (lowerL w) != 0 || pyCount t_summary (lowerL w) != 0

namespace App

/-- `presscut_score` from src/app.py (lines 256-328).  Dates are day
numbers.  The soft relevance gate of this variant tests only
`base_hit` (line 318: `if not must_have and not base_hit`). -/
def presscut_score (title summary : Str)
    (base_keywords must_have nice_to_have exclude : List Str)
    (published_at ref_date : Int) : Option Int :=
  let t_title := lowerL title
  let t_summary := lowerL summary
  if excludeHit t_title t_summary exclude then none
  else if mustMissing t_title t_summary must_have then none
  else
    let score := groupScore t_title t_summary must_have 5 3
               + groupScore t_title t_summary base_keywords 3 2
               + groupScore t_title t_summary nice_to_have 2 1
    if must_have.isEmpty && !groupHit t_title t_summary base_keywords then none
    else
      let score := score + recency_bonus published_at ref_date
      if score > 0 then some score else none

end App

namespace Report

/-- `presscut_score` from src/report.py (lines 143-210).  Identical to
the src/app.py variant except for the soft relevance gate, which tests
`base_hit or nice_hit` (line 202:
`if not must_have and not (base_hit or nice_hit)`). -/
def presscut_score (title summary : Str)
    (base_keywords must_have nice_to_have exclude : List Str)
    (published_at ref_date : Int) : Option Int :=
  let t_title := lowerL title
  let t_summary := lowerL summary
  if excludeHit t_title t_summary exclude then none
  else if mustMissing t_title t_summary must_have then none
  else
    let score := groupScore t_title t_summary must_have 5 3
               + groupScore t_title t_summary base_keywords 3 2
               + groupScore t_title t_summary nice_to_have 2 1
    if must_have.isEmpty && !(groupHit t_title t_summary base_keywords
                              || groupHit t_title t_summary nice_to_have) then none
    else
      let score := score + recency_bonus published_at ref_date
      if score > 0 then some score else none

end Report

/-! ### Helper lemmas about the scorer -/

lemma groupScore_nil (t s : Str) (wt wsum : Int) : groupScore t s [] wt wsum = 0 := rfl

lemma groupScore_foldl_shift (t s : Str) (ws : List Str) (wt wsum a : Int) :
    ws.foldl
      (fun acc w =>
        acc + (pyCount t (lowerL w) : Int) * wt + (pyCount s (lowerL w) : Int) * wsum) a
      = a + groupScore t s ws wt wsum := by
  induction ws generalizing a with
  | nil => simp [groupScore]
  | cons hd tl ih =>
    simp only [groupScore, List.foldl_cons] at *
    rw [ih, ih (0 + (pyCount t (lowerL hd) : Int) * wt + (pyCount s (lowerL hd) : Int) * wsum)]
    ring

lemma groupScore_cons (t s : Str) (hd : Str) (tl : List Str) (wt wsum : Int) :
    groupScore t s (hd :: tl) wt wsum
      = ((pyCount t (lowerL hd) : Int) * wt + (pyCount s (lowerL hd) : Int) * wsum)
        + groupScore t s tl wt wsum := by
  simp only [groupScore, List.foldl_cons]
  rw [groupScore_foldl_shift]
  ring_nf
  simp [groupScore]

lemma groupScore_nonneg (t s : Str) (ws : List Str) (wt wsum : Int)
    (hwt : 0 ≤ wt) (hws : 0 ≤ wsum) : 0 ≤ groupScore t s ws wt wsum := by
  induction ws with
  | nil => simp [groupScore]
  | cons hd tl ih =>
    rw [groupScore_cons]
    have h1 : (0 : Int) ≤ (pyCount t (lowerL hd) : Int) * wt :=
      mul_nonneg (Int.natCast_nonneg _) hwt
    have h2 : (0 : Int) ≤ (pyCount s (lowerL hd) : Int) * wsum :=
      mul_nonneg (Int.natCast_nonneg _) hws
    linarith

lemma groupHit_one_le_groupScore (t s : Str) (ws : List Str) (wt wsum : Int)
    (hwt : 1 ≤ wt) (hws : 1 ≤ wsum) (hhit : groupHit t s ws = true) :
    1 ≤ groupScore t s ws wt wsum := by
  induction ws with
  | nil => simp [groupHit] at hhit
  | cons hd tl ih =>
    rw [groupScore_cons]
    simp only [groupHit, List.any_cons, Bool.or_eq_true, bne_iff_ne, ne_eq] at hhit
    rcases hhit with hhd | htl
    · have htail : 0 ≤ groupScore t s tl wt wsum :=
        groupScore_nonneg t s tl wt wsum (by linarith) (by linarith)
      rcases hhd with hc | hc
      · have h1 : 1 ≤ (pyCount t (lowerL hd) : Int) := by
          have := Nat.one_le_iff_ne_zero.mpr hc
          exact_mod_cast this
        have h2 : (0 : Int) ≤ (pyCount s (lowerL hd) : Int) * wsum :=
          mul_nonneg (Int.natCast_nonneg _) (by linarith)
        nlinarith
      · have h1 : 1 ≤ (pyCount s (lowerL hd) : Int) := by
          have := Nat.one_le_iff_ne_zero.mpr hc
          exact_mod_cast this
        have h2 : (0 : Int) ≤ (pyCount t (lowerL hd) : Int) * wt :=
          mul_nonneg (Int.natCast_nonneg _) (by linarith)
        nlinarith
    · have hhead1 : (0 : Int) ≤ (pyCount t (lowerL hd) : Int) * wt :=
        mul_nonneg (Int.natCast_nonneg _) (by linarith)
      have hhead2 : (0 : Int) ≤ (pyCount s (lowerL hd) : Int) * wsum :=
        mul_nonneg (Int.natCast_nonneg _) (by linarith)
      have := ih (by simpa [groupHit] using htl)
      linarith

lemma recency_bonus_nonneg (p r : Int) : 0 ≤ recency_bonus p r := le_max_left 0 _

/-! ### Claim theorems about the scorer -/

/-- C1 (counterexample).  The two `presscut_score` variants are not
extensionally equal: on an item whose only match is a nice-to-have
phrase (empty `must_have`, no base-keyword hit), src/app.py rejects
while src/report.py keeps it. -/
theorem presscut_app_ne_report :
    App.presscut_score (strL "vlada") (strL "") [] [] [strL "vlada"] [] 0 0
      ≠ Report.presscut_score (strL "vlada") (strL "") [] [] [strL "vlada"] [] 0 0 := by
  decide

/-- C1 (amended).  The two `presscut_score` variants agree on every
input in which `must_have` is non-empty, or some base keyword hits, or
no nice-to-have phrase hits; they differ only in the soft relevance
gate, which in src/app.py ignores nice-to-have hits. -/
theorem presscut_app_eq_report_of_gate_agree
    (title summary : Str) (base must nice exclude : List Str) (pub ref : Int)
    (h : must ≠ []
         ∨ groupHit (lowerL title) (lowerL summary) base = true
         ∨ groupHit (lowerL title) (lowerL summary) nice = false) :
    App.presscut_score title summary base must nice exclude pub ref
      = Report.presscut_score title summary base must nice exclude pub ref := by
  have hg : (must.isEmpty && !groupHit (lowerL title) (lowerL summary) base)
      = (must.isEmpty && !(groupHit (lowerL title) (lowerL summary) base
                           || groupHit (lowerL title) (lowerL summary) nice)) := by
    rcases h with h | h | h
    · cases must with
      | nil => simp at h
      | cons a l => simp [List.isEmpty]
    · simp [h]
    · simp [h]
  simp only [App.presscut_score, Report.presscut_score]
  rw [hg]

/-- C1 (witness for the amended theorem): a concrete input with
non-empty `must_have` on which the two variants agree. -/
theorem presscut_app_eq_report_witness :
    App.presscut_score (strL "pdv") (strL "") [] [strL "pdv"] [] [] 0 0
      = Report.presscut_score (strL "pdv") (strL "") [] [strL "pdv"] [] [] 0 0 :=
  presscut_app_eq_report_of_gate_agree (strL "pdv") (strL "") [] [strL "pdv"] [] [] 0 0
    (Or.inl (by decide))

/-- C2 (counterexample).  In src/app.py, an item whose only match is a
nice-to-have phrase (empty `must_have`, no base-keyword hit, no exclude
match) IS rejected by the soft relevance gate, contradicting the claim
that such an item is kept. -/
theorem presscut_app_gate_rejects_nice_only :
    App.presscut_score (strL "Ministarstvo financija") (strL "")
      [] [] [strL "financija"] [] 0 0 = none := by
  decide

/-- C2 (amended).  With `must_have` empty and no exclude match, the
src/report.py scorer rejects exactly when neither a base-keyword hit
nor a nice-to-have hit occurred, while the src/app.py scorer rejects
exactly when no base-keyword hit occurred (nice-to-have hits do not
satisfy its gate). -/
theorem presscut_gate_characterisation
    (title summary : Str) (base nice exclude : List Str) (pub ref : Int)
    (hex : excludeHit (lowerL title) (lowerL summary) exclude = false) :
    (Report.presscut_score title summary base [] nice exclude pub ref = none
       ↔ (groupHit (lowerL title) (lowerL summary) base = false
          ∧ groupHit (lowerL title) (lowerL summary) nice = false))
    ∧ (App.presscut_score title summary base [] nice exclude pub ref = none
       ↔ groupHit (lowerL title) (lowerL summary) base = false) := by
  have hmm : mustMissing (lowerL title) (lowerL summary) ([] : List Str) = false := rfl
  have hms : groupScore (lowerL title) (lowerL summary) ([] : List Str) 5 3 = 0 := rfl
  have hrb := recency_bonus_nonneg pub ref
  have hbase0 := groupScore_nonneg (lowerL title) (lowerL summary) base 3 2
    (by norm_num) (by norm_num)
  have hnice0 := groupScore_nonneg (lowerL title) (lowerL summary) nice 2 1
    (by norm_num) (by norm_num)
  constructor
  · simp only [Report.presscut_score, hex, hmm, Bool.false_eq_true, if_false, hms,
      List.isEmpty_nil, Bool.true_and]
    cases hb : groupHit (lowerL title) (lowerL summary) base with
    | true =>
      have := groupHit_one_le_groupScore (lowerL title) (lowerL summary) base 3 2
        (by norm_num) (by norm_num) hb
      simp only [Bool.true_or, Bool.not_true, Bool.false_eq_true, if_false]
      rw [if_pos (by linarith)]
      simp
    | false =>
      cases hn : groupHit (lowerL title) (lowerL summary) nice with
      | true =>
        have := groupHit_one_le_groupScore (lowerL title) (lowerL summary) nice 2 1
          (by norm_num) (by norm_num) hn
        simp only [Bool.false_or, Bool.not_true, Bool.false_eq_true, if_false]
        rw [if_pos (by linarith)]
        simp
      | false => simp
  · simp only [App.presscut_score, hex, hmm, Bool.false_eq_true, if_false, hms,
      List.isEmpty_nil, Bool.true_and]
    cases hb : groupHit (lowerL title) (lowerL summary) base with
    | true =>
      have := groupHit_one_le_groupScore (lowerL title) (lowerL summary) base 3 2
        (by norm_num) (by norm_num) hb
      simp only [Bool.not_true, Bool.false_eq_true, if_false]
      rw [if_pos (by linarith)]
      simp
    | false => simp

/-- C2 (witness): a concrete application of the gate
characterisation, rejecting an unmatched item in src/app.py. -/
theorem presscut_gate_characterisation_witness :
    App.presscut_score (strL "abc") (strL "") [] [] [] [] 0 0 = none :=
  (presscut_gate_characterisation (strL "abc") (strL "") [] [] [] 0 0 (by decide)).2.mpr
    (by decide)

/-- C4 (counterexample).  On the spec's worked example, `presscut_score`
from src/app.py does not return 14: the nice-to-have hit "vlada" sits
in the summary, whose weight for nice-to-have phrases is 1 (not 2). -/
theorem presscut_example_ne_fourteen :
    App.presscut_score (strL "Porezna reforma donosi nove stope PDV-a")
      (strL "Vlada najavljuje promjene poreza.")
      [strL "pdv"] [strL "porezna reforma"] [strL "vlada"] [strL "sport"] 0 1
      ≠ some 14 := by
  decide

/-- C4 (amended).  On the spec's worked example the score is
5 (must-have in title) + 3 (base keyword in title) + 1 (nice-to-have in
summary, summary weight 1) + 4 (recency bonus for age 1 day) = 13. -/
theorem presscut_example_thirteen :
    App.presscut_score (strL "Porezna reforma donosi nove stope PDV-a")
      (strL "Vlada najavljuje promjene poreza.")
      [strL "pdv"] [strL "porezna reforma"] [strL "vlada"] [strL "sport"] 0 1
      = some 13 := by
  decide

/-- C6 (confirmed).  If any exclude phrase occurs case-insensitively in
the title or in the summary, both `presscut_score` variants reject,
whatever the other keyword groups and dates are: the exclude loop is
the first check and returns `None` immediately. -/
theorem presscut_exclude_dominates
    (title summary : Str) (base must nice exclude : List Str) (pub ref : Int)
    (w : Str) (hw : w ∈ exclude)
    (hmatch : isInfixL (lowerL w) (lowerL title) = true
              ∨ isInfixL (lowerL w) (lowerL summary) = true) :
    App.presscut_score title summary base must nice exclude pub ref = none
    ∧ Report.presscut_score title summary base must nice exclude pub ref = none := by
  have hex : excludeHit (lowerL title) (lowerL summary) exclude = true := by
    unfold excludeHit
    rw [List.any_eq_true]
    refine ⟨w, hw, ?_⟩
    rcases hmatch with h | h <;> simp [h]
  constructor
  · simp [App.presscut_score, hex]
  · simp [Report.presscut_score, hex]

/-- C6 (witness): the exclude phrase "sport" occurs in the title, so
both scorers reject the item. -/
theorem presscut_exclude_dominates_witness :
    App.presscut_score (strL "Sportske vijesti dana") (strL "Rezultati utakmica")
      [strL "pdv"] [] [] [strL "sport"] 0 0 = none
    ∧ Report.presscut_score (strL "Sportske vijesti dana") (strL "Rezultati utakmica")
      [strL "pdv"] [] [] [strL "sport"] 0 0 = none :=
  presscut_exclude_dominates (strL "Sportske vijesti dana") (strL "Rezultati utakmica")
    [strL "pdv"] [] [] [strL "sport"] 0 0 (strL "sport") (by decide) (Or.inl (by decide))

/-- C7 (confirmed).  The recency bonus used by `presscut_score` equals
`max(0, 5 - max(0, age_days))`: it is monotonically non-increasing in
the item's age, vanishes for every age of at least 5 days, and is the
maximal 5 for every future-dated item; in particular an older item
never receives a larger bonus. -/
theorem recency_bonus_spec :
    (∀ p r : Int, recency_bonus p r = max 0 (5 - max 0 (r - p)))
    ∧ (∀ r p p' : Int, p' ≤ p → recency_bonus p' r ≤ recency_bonus p r)
    ∧ (∀ p r : Int, 5 ≤ r - p → recency_bonus p r = 0)
    ∧ (∀ p r : Int, r - p < 0 → recency_bonus p r = 5) := by
  refine ⟨?_, ?_, ?_, ?_⟩ <;>
    · intros
      simp only [recency_bonus, max_def] at *
      split_ifs <;> omega

/-- C7 (witness): concrete applications of the recency-bonus
characterisation. -/
theorem recency_bonus_spec_witness :
    recency_bonus 0 3 = max 0 (5 - max 0 3)
    ∧ recency_bonus (-2) 3 ≤ recency_bonus 0 3
    ∧ recency_bonus 0 7 = 0
    ∧ recency_bonus 5 2 = 5 :=
  ⟨recency_bonus_spec.1 0 3,
   recency_bonus_spec.2.1 3 0 (-2) (by norm_num),
   recency_bonus_spec.2.2.1 0 7 (by norm_num),
   recency_bonus_spec.2.2.2 5 2 (by norm_num)⟩

/-!
### SimilarityEngine (src/newsmonitor/similarity.py)

`text_similarity` builds a `TfidfVectorizer(max_features=5000,
ngram_range=(1, 2))` over exactly the two input documents and returns
the cosine similarity of the two rows.  The vectorizer's analysis
pipeline (lower-casing, the default token pattern `\b\w\w+\b`, unigram
and bigram extraction) is embedded below; fitting on a corpus with no
terms at all raises `ValueError("empty vocabulary; ...")` inside
scikit-learn, which the repository does not catch.  The real-valued
tf-idf/cosine arithmetic is carried out in `Float`; no claim depends
on the numeric value, only on the error path.
-/

/-- First-occurrence deduplication (Python `dict.fromkeys`,
scikit-learn vocabulary collection). -/
def firstDedupGo {α} [DecidableEq α] (seen : List α) : List α → List α
  | [] => []
  | a :: rest =>
    if a ∈ seen then firstDedupGo seen rest else a :: firstDedupGo (a :: seen) rest

/-- Deduplicate keeping the first occurrence of each element. -/
def firstDedup {α} [DecidableEq α] (l : List α) : List α := firstDedupGo [] l

/-- Stable insertion step: put `a` before the first element `b` with
`before a b`. -/
def insertBy {α} (before : α → α → Bool) (a : α) : List α → List α
  | [] => [a]
  | b :: l => if before a b then a :: b :: l else b :: insertBy before a l

/-- Stable insertion sort (`sorted` in Python): fold the list into an
accumulator ordered by `before`; ties keep first-seen order. -/
def sortBy {α} (before : α → α → Bool) (l : List α) : List α :=
  l.foldl (fun acc a => insertBy before a acc) []

/-- Lexicographic comparison of two texts by code point, as Python
compares strings. -/
def strLt : Str → Str → Bool
  | [], [] => false
  | [], _ :: _ => true
  | _ :: _, [] => false
  | a :: as, b :: bs => a < b || (a = b && strLt as bs)

/-- A regex `\w` word character (ASCII model). -/
def wordChar (c : Char) : Bool := c.isAlphanum || c = '_'

/-- scikit-learn's default analyzer tokens: lower-case the text and
take the maximal word-character runs of length at least 2
(token pattern `\b\w\w+\b`). -/
def sklearnTokens (s : Str) : List Str :=
  ((lowerL s).splitOnP (fun c => !wordChar c)).filter (fun t => 2 ≤ t.length)

/-- Bigrams of a token list, joined by a single space as scikit-learn
does for `ngram_range=(1, 2)`. -/
def bigrams : List Str → List Str
  | a :: b :: rest => (a ++ ' ' :: b) :: bigrams (b :: rest)
  | _ => []

/-- All analyzer n-grams (unigrams then bigrams) of one document. -/
def docNgrams (s : Str) : List Str :=
  let t := sklearnTokens s
  t ++ bigrams t

/-- Number of occurrences of a term in a document's n-gram list (the
term-frequency entry of the count matrix). -/
def countTerm (ng : List Str) (t : Str) : Nat := ng.countP (· = t)

/-- `text_similarity` from src/newsmonitor/similarity.py: fit a
tf-idf vectorizer (vocabulary capped at 5000 terms, unigrams and
bigrams, smoothed idf, l2 normalisation) on the two texts and return
the cosine similarity of the two rows.  A corpus with an empty
vocabulary makes scikit-learn raise `ValueError`, modelled as
`Except.error`. -/
def text_similarity (text_a text_b : Str) : Except String Float :=
  let ngA := docNgrams text_a
  let ngB := docNgrams text_b
  let vocab0 := sortBy strLt (firstDedup (ngA ++ ngB))
  if vocab0.isEmpty then
    .error "empty vocabulary; perhaps the documents only contain stop words"
  else
    let freq := fun t => countTerm ngA t + countTerm ngB t
    let vocab := if 5000 < vocab0.length then
        (sortBy (fun a b => freq b < freq a) vocab0).take 5000
      else vocab0
    let tfidf := fun (ng : List Str) (t : Str) =>
      let tf : Float := Float.ofNat (countTerm ng t)
      let df : Nat := (if countTerm ngA t ≠ 0 then 1 else 0)
                    + (if countTerm ngB t ≠ 0 then 1 else 0)
      tf * (Float.log ((1 + 2) / (1 + Float.ofNat df)) + 1)
    let vA := vocab.map (tfidf ngA)
    let vB := vocab.map (tfidf ngB)
    let dot := fun (x y : List Float) => (x.zip y).foldl (fun acc p => acc + p.1 * p.2) 0
    let normalize := fun (x : List Float) =>
      let n := Float.sqrt (dot x x)
      if n == 0 then x else x.map (· / n)
    .ok (dot (normalize vA) (normalize vB))

/-- C5 (code_bug evidence).  `text_similarity("", "")` does not return
0: the fitted vocabulary is empty, so scikit-learn raises `ValueError`
inside `fit_transform`, uncaught by the repository. -/
theorem text_similarity_empty_empty_raises :
    text_similarity (strL "") (strL "")
      = Except.error "empty vocabulary; perhaps the documents only contain stop words" := by
  rfl

/-!
### RepostDetector (src/newsmonitor/search.py, blog.py, utils.py)

Candidate URLs are modelled in parsed form (the six components of
Python's `urlparse`); the raw URL string the code manipulates is
recovered with `urlunparse`, embedded from CPython's `urlunparse` /
`urlunsplit`.  The external collaborators are parameters:
`search` models `serper_search`'s network call (`none` = the exception
swallowed by `try/except` around the call), and `extract` models
`extract_article_text` (`none` = an exception caught by the inner
`try/except`).  The similarity function is a parameter with values in
`ℚ`; the threshold constants 0.6, 0.15 and 0.05 of the source are
exact rationals here (the claims about the pipeline do not depend on
floating-point rounding of these literals).  `time.sleep(0.3)` is
pacing only and has no observable effect on the computed findings. -/

/-- A parsed URL: the six components of Python `urlparse`. -/
structure Url where
  scheme : Str
  netloc : Str
  path : Str
  params : Str
  query : Str
  fragment : Str
deriving DecidableEq

/-- CPython `urllib.parse.urlunparse` (via `urlunsplit`). -/
def urlunparse (u : Url) : Str :=
  let url := if u.params ≠ [] then u.path ++ ';' :: u.params else u.path
  let url :=
    if u.netloc ≠ [] || (url ≠ [] && (strL "//").isPrefixOf url) then
      (strL "//") ++ u.netloc
        ++ (if url ≠ [] && !(strL "/").isPrefixOf url then '/' :: url else url)
    else url
  let url := if u.scheme ≠ [] then u.scheme ++ ':' :: url else url
  let url := if u.query ≠ [] then url ++ '?' :: u.query else url
  if u.fragment ≠ [] then url ++ '#' :: u.fragment else url

/-- Python `str.rstrip("/")`. -/
def rstripSlash (s : Str) : Str := (s.reverse.dropWhile (· = '/')).reverse

/-- `normalize_url` from src/newsmonitor/search.py (lines 70-80):
lower-case the host, strip the fragment, strip trailing slashes from
the path (an empty path becomes "/"), keep the query, and unparse. -/
def normalize_url (u : Url) : Str :=
  let netloc := lowerL u.netloc
  let path := rstripSlash u.path
  let path := if path = [] then strL "/" else path
  urlunparse { u with netloc := netloc, fragment := [], path := path }

/-- The fixed target-domain list of src/newsmonitor/search.py. -/
def TARGET_DOMAINS : List Str :=
  [strL "lidermedia.hr", strL "lider.media", strL "lider.media.hr",
   strL "tportal.hr", strL "index.hr", strL "n1info.hr",
   strL "jutarnji.hr", strL "vecernji.hr", strL "poslovni.hr"]

/-- `clean_snippet` from src/newsmonitor/utils.py: newlines to spaces,
strip, cap at 60 words, re-join with single spaces. -/
def clean_snippet (snippet : Str) : Str :=
  let snippet := pyStrip (snippet.map (fun c => if c = '\n' then ' ' else c))
  let parts := splitWs snippet
  let parts := if 60 < parts.length then parts.take 60 else parts
  joinSpace parts

/-- An ASCII letter (the regex class `[A-Za-z]`). -/
def asciiAlpha (c : Char) : Bool := ('a' ≤ c && c ≤ 'z') || ('A' ≤ c && c ≤ 'Z')

/-- The Croatian stopword list of `extract_keywords`. -/
def STOPWORDS : List Str :=
  [strL "i", strL "u", strL "na", strL "za", strL "se", strL "je", strL "su",
   strL "od", strL "do", strL "da", strL "s", strL "sa", strL "o",
   strL "kao", strL "koji", strL "sto", strL "kako", strL "ce", strL "ces",
   strL "ceu", strL "sam", strL "si", strL "smo", strL "ste",
   strL "biti", strL "bila", strL "bio", strL "bilo", strL "te", strL "ali",
   strL "ili", strL "pa", strL "dok", strL "no", strL "ne",
   strL "nije", strL "nisu", strL "moze", strL "mogu", strL "njih",
   strL "njihov", strL "ova", strL "ovaj", strL "ovo", strL "tu",
   strL "tamo", strL "vise", strL "manje"]

/-- `extract_keywords` from src/newsmonitor/search.py (lines 40-54):
`re.findall("[A-Za-z]+", text.lower())`, keep the first `window_words`
words, drop stopwords and words of length at most 3, and return the
`top_n` most frequent words (`Counter.most_common`: frequency
descending, ties in first-seen order). -/
def extract_keywords (text : Str) (top_n window_words : Nat) : List Str :=
  let words := (((lowerL text).splitOnP (fun c => !asciiAlpha c)).filter (· ≠ [])).take
    window_words
  let filtered := words.filter (fun w => !STOPWORDS.contains w && 3 < w.length)
  (sortBy (fun a b => countTerm filtered b < countTerm filtered a) (firstDedup filtered)).take
    top_n

/-- `BlogPost` from src/newsmonitor/blog.py. -/
structure BlogPost where
  title : Str
  url : Str
  text : Str
deriving DecidableEq

/-- Wrap a query part in double quotes, as the f-strings of
`build_queries` do. -/
def quoteQ (s : Str) : Str := '"' :: (s ++ ['"'])

/-- The fixed attribution phrase appended by `build_queries`. -/
def AUTHOR : Str := strL "Leonarda Srdelic"

/-- `build_queries` from src/newsmonitor/search.py (lines 83-116). -/
def build_queries (post : BlogPost) : List Str :=
  let title_clean := pyStrip (post.title.map (fun c => if c = '\n' then ' ' else c))
  let queries :=
    if title_clean ≠ [] then
      [quoteQ title_clean ++ ' ' :: quoteQ AUTHOR, quoteQ title_clean]
    else []
  let intro_words := splitWs post.text
  let queries := queries ++
    (if intro_words ≠ [] then
      let intro_snippet := joinSpace (intro_words.take 16)
      if 6 < (splitWs intro_snippet).length then [quoteQ intro_snippet] else []
    else [])
  let keywords := extract_keywords post.text 8 120
  let queries := queries
    ++ (if 3 ≤ keywords.length then [quoteQ (joinSpace (keywords.take 3))] else [])
    ++ (if 4 ≤ keywords.length then [quoteQ (joinSpace (keywords.take 4))] else [])
  let sentences := post.text.splitOn '.'
  let queries := queries ++ (sentences.take 3).flatMap (fun sent =>
    let sent_clean := pyStrip sent
    if 6 < (splitWs sent_clean).length then
      [quoteQ sent_clean ++ ' ' :: quoteQ AUTHOR, quoteQ sent_clean]
    else [])
  let domain_queries := TARGET_DOMAINS.flatMap (fun domain =>
    queries.map (fun q => strL "site:" ++ domain ++ ' ' :: q))
  firstDedup (queries ++ domain_queries)

/-- One raw entry of the Serper response's `organic` list (already as
the fields `serper_search` reads; a missing link is `none`). -/
structure SerperItem where
  title : Str
  link : Option Url
  snippet : Str
deriving DecidableEq

/-- A search result as assembled by `serper_search` (lines 28-37). -/
structure SearchResult where
  name : Str
  url : Option Url
  snippet : Str
deriving DecidableEq

/-- The result mapping of `serper_search`: keep title and link, clean
the snippet. -/
def serper_results (items : List SerperItem) : List SearchResult :=
  items.map fun it => { name := it.title, url := it.link, snippet := clean_snippet it.snippet }

/-- A repost finding as assembled in `search_for_reposts`
(lines 202-212).  `similarity` is stored unrounded (the code rounds to
3 decimals for display only). -/
structure Finding where
  source_post_title : Str
  source_post_url : Str
  matched_title : Str
  matched_url : Str
  snippet : Str
  similarity : ℚ
  match_source : Str
deriving DecidableEq

/-- The mutable state of one `search_for_reposts` run: the findings
accumulated so far and the set of seen canonical URLs. -/
structure DetState where
  findings : List Finding
  seen : List Str
deriving DecidableEq

/-- The initial skip checks on one search result (lines 142-151):
missing or non-web URL, no displayable title/snippet, or the excluded
self-domain. -/
def candidateGate (r : SearchResult) : Option Url :=
  match r.url with
  | none => none
  | some u =>
    let url := urlunparse u
    if url = [] ∨ (strL "http").isPrefixOf url = false ∨ (r.name = [] ∧ r.snippet = []) then
      none
    else if isInfixL (strL "leonardasrdelic.github.io") url = true then none
    else some u

/-- The extracted article text of one candidate (lines 160-168):
`extract_article_text(url)`, with an exception giving the empty text. -/
def candidate_text0 (extract : Str → Option Str) (url : Str) : Str :=
  match extract url with
  | some t => t
  | none => []

/-- The provenance tag set at extraction time (lines 165-168): "full"
when extraction succeeded, "none" when it raised. -/
def sim_source0 (extract : Str → Option Str) (url : Str) : Str :=
  match extract url with
  | some _ => strL "full"
  | none => strL "none"

/-- `candidate_words` (line 170): the word count of the extracted
text, taken before the text is possibly discarded. -/
def candidate_words (extract : Str → Option Str) (url : Str) : Nat :=
  (splitWs (candidate_text0 extract url)).length

/-- `candidate_text` after the first filter (lines 171-172): texts
that are empty or under 30 words are discarded. -/
def candidate_text (extract : Str → Option Str) (url : Str) : Str :=
  if candidate_text0 extract url = [] ∨ candidate_words extract url < 30 then []
  else candidate_text0 extract url

/-- `fallback_text` as built in the fallback branch (line 175): the
space-joined non-empty ones among title and snippet. -/
def fallback_text (r : SearchResult) : Str :=
  joinSpace ([r.name, r.snippet].filter (· ≠ []))

/-- The similarity-basis decision (lines 173-183): under 60 extracted
words fall back to title+snippet with source "snippet" (or "none" and
similarity 0.0 when that is empty too); otherwise compare against the
full extracted text.  Returns (similarity, source, fallback_text). -/
def simStep (post : BlogPost) (extract : Str → Option Str) (sim : Str → Str → ℚ)
    (url : Str) (r : SearchResult) : ℚ × Str × Str :=
  if candidate_text extract url = [] ∨ candidate_words extract url < 60 then
    if fallback_text r ≠ [] then
      (sim post.text (fallback_text r), strL "snippet", fallback_text r)
    else ((0 : ℚ), strL "none", fallback_text r)
  else (sim post.text (candidate_text extract url), sim_source0 extract url, ([] : Str))

/-- The extraction / fallback / threshold decision on one candidate
(lines 158-212): try full-text extraction, fall back to title+snippet
below 60 extracted words, lower the threshold by 0.15 for
target-domain hosts (floored at 0.05), demand an extra 0.05 margin for
snippet-basis matches, and build the `Finding` on acceptance. -/
def evalCandidate (post : BlogPost) (extract : Str → Option Str) (sim : Str → Str → ℚ)
    (similarity_threshold : ℚ) (u : Url) (r : SearchResult) : Option Finding :=
  let url := urlunparse u
  let is_target_domain := TARGET_DOMAINS.any (fun d => isInfixL d url)
  let step := simStep post extract sim url r
  let sim_val := step.1
  let src := step.2.1
  if candidate_text extract url = [] ∧ step.2.2 = [] ∧ r.name = [] ∧ r.snippet = [] then
    none
  else
    let effective_threshold :=
      if is_target_domain then similarity_threshold - 0.15 else similarity_threshold
    let effective_threshold := max 0.05 effective_threshold
    if src = strL "snippet" then
      if sim_val < effective_threshold + 0.05 then none
      else some ⟨post.title, post.url, r.name, url, r.snippet, sim_val, src⟩
    else
      if sim_val < effective_threshold then none
      else some ⟨post.title, post.url, r.name, url, r.snippet, sim_val, src⟩

/-- Processing of one search result inside the loops of
`search_for_reposts`: run the skip checks, dedup on the canonical URL
(adding it to `seen` before the similarity decision), then evaluate
the candidate and append the finding on acceptance. -/
def processResult (post : BlogPost) (extract : Str → Option Str) (sim : Str → Str → ℚ)
    (similarity_threshold : ℚ) (st : DetState) (r : SearchResult) : DetState :=
  match candidateGate r with
  | none => st
  | some u =>
    let normalized_url := normalize_url u
    if normalized_url ∈ st.seen then st
    else
      let seen' := normalized_url :: st.seen
      match evalCandidate post extract sim similarity_threshold u r with
      | none => { st with seen := seen' }
      | some f => { findings := st.findings ++ [f], seen := seen' }

/-- Processing of one query: call the search provider (an exception
yields `none` and the query is skipped), then fold over its results. -/
def processQuery (post : BlogPost) (search : Str → Nat → Option (List SerperItem))
    (extract : Str → Option Str) (sim : Str → Str → ℚ) (similarity_threshold : ℚ)
    (max_results_per_query : Nat) (st : DetState) (query : Str) : DetState :=
  match search query max_results_per_query with
  | none => st
  | some items => (serper_results items).foldl
      (processResult post extract sim similarity_threshold) st

/-- Processing of one blog post: cap the synthesized queries (12 for
posts under 200 words), then fold over the queries. -/
def processPost (search : Str → Nat → Option (List SerperItem))
    (extract : Str → Option Str) (sim : Str → Str → ℚ) (similarity_threshold : ℚ)
    (max_results_per_query max_queries_per_post : Nat)
    (st : DetState) (post : BlogPost) : DetState :=
  let post_word_count := (splitWs post.text).length
  let max_queries_for_post :=
    if 200 ≤ post_word_count then max_queries_per_post else min max_queries_per_post 12
  ((build_queries post).take max_queries_for_post).foldl
    (processQuery post search extract sim similarity_threshold max_results_per_query) st

/-- The full state of one `search_for_reposts` run over all posts,
starting from no findings and no seen URLs. -/
def search_run (posts : List BlogPost) (search : Str → Nat → Option (List SerperItem))
    (extract : Str → Option Str) (sim : Str → Str → ℚ) (similarity_threshold : ℚ)
    (max_results_per_query max_queries_per_post : Nat) : DetState :=
  posts.foldl
    (processPost search extract sim similarity_threshold
      max_results_per_query max_queries_per_post)
    ⟨[], []⟩

/-- `search_for_reposts` from src/newsmonitor/search.py
(lines 119-214): the findings of the run. -/
def search_for_reposts (posts : List BlogPost)
    (search : Str → Nat → Option (List SerperItem)) (extract : Str → Option Str)
    (sim : Str → Str → ℚ) (similarity_threshold : ℚ)
    (max_results_per_query max_queries_per_post : Nat) : List Finding :=
  (search_run posts search extract sim similarity_threshold
    max_results_per_query max_queries_per_post).findings

/-! ### Helper lemmas about the detection pipeline -/

lemma splitWs_nil : splitWs [] = [] := rfl

lemma effective_threshold_pos (θ : ℚ) (b : Bool) :
    0 < max 0.05 (if b = true then θ - 0.15 else θ) := by
  refine lt_of_lt_of_le ?_ (le_max_left _ _)
  norm_num


lemma simStep_cases (post : BlogPost) (extract : Str → Option Str) (sim : Str → Str → ℚ)
    (url : Str) (r : SearchResult) :
    (∃ t, extract url = some t ∧ 60 ≤ (splitWs t).length
       ∧ candidate_text extract url = t
       ∧ simStep post extract sim url r = (sim post.text t, strL "full", []))
    ∨ ((∀ t, extract url = some t → (splitWs t).length < 60)
       ∧ fallback_text r ≠ []
       ∧ simStep post extract sim url r
           = (sim post.text (fallback_text r), strL "snippet", fallback_text r))
    ∨ ((∀ t, extract url = some t → (splitWs t).length < 60)
       ∧ fallback_text r = []
       ∧ simStep post extract sim url r = ((0 : ℚ), strL "none", [])) := by
  by_cases hcond : candidate_text extract url = [] ∨ candidate_words extract url < 60
  · have hlt : ∀ t, extract url = some t → (splitWs t).length < 60 := by
      intro t ht
      have hct0 : candidate_text0 extract url = t := by simp [candidate_text0, ht]
      have hcw : candidate_words extract url = (splitWs t).length := by
        rw [candidate_words, hct0]
      rcases hcond with hc | hc
      · by_cases h30 : candidate_text0 extract url = [] ∨ candidate_words extract url < 30
        · rcases h30 with h0 | h0
          · rw [hct0] at h0
            subst h0
            simp [splitWs_nil]
          · omega
        · rw [candidate_text, if_neg h30, hct0] at hc
          subst hc
          simp [splitWs_nil]
      · omega
    by_cases hfb : fallback_text r = []
    · refine Or.inr (Or.inr ⟨hlt, hfb, ?_⟩)
      rw [simStep, if_pos hcond, if_neg (by simpa using hfb), hfb]
    · refine Or.inr (Or.inl ⟨hlt, hfb, ?_⟩)
      rw [simStep, if_pos hcond, if_pos (by simpa using hfb)]
  · push_neg at hcond
    have h30 : ¬(candidate_text0 extract url = [] ∨ candidate_words extract url < 30) := by
      intro hor
      exact hcond.1 (by rw [candidate_text, if_pos hor])
    have hct : candidate_text extract url = candidate_text0 extract url := by
      rw [candidate_text, if_neg h30]
    have hne : candidate_text0 extract url ≠ [] := fun h0 => h30 (Or.inl h0)
    obtain ⟨t, ht⟩ : ∃ t, extract url = some t := by
      cases hh : extract url with
      | none => exact absurd (by rw [candidate_text0, hh]) hne
      | some t => exact ⟨t, rfl⟩
    have hct0 : candidate_text0 extract url = t := by simp [candidate_text0, ht]
    have hcw : candidate_words extract url = (splitWs t).length := by
      rw [candidate_words, hct0]
    refine Or.inl ⟨t, ht, by omega, by rw [hct, hct0], ?_⟩
    rw [simStep, if_neg (by push_neg; exact hcond), hct, hct0]
    simp [sim_source0, ht]

lemma evalCandidate_some_spec (post : BlogPost) (extract : Str → Option Str)
    (sim : Str → Str → ℚ) (θ : ℚ) (u : Url) (r : SearchResult) (f : Finding)
    (h : evalCandidate post extract sim θ u r = some f) :
    f.source_post_title = post.title ∧ f.source_post_url = post.url
    ∧ f.matched_title = r.name ∧ f.matched_url = urlunparse u ∧ f.snippet = r.snippet
    ∧ ((f.match_source = strL "full"
          ∧ ∃ t, extract (urlunparse u) = some t ∧ 60 ≤ (splitWs t).length
              ∧ f.similarity = sim post.text t)
       ∨ (f.match_source = strL "snippet"
          ∧ (∀ t, extract (urlunparse u) = some t → (splitWs t).length < 60)
          ∧ f.similarity = sim post.text (fallback_text r))) := by
  rcases simStep_cases post extract sim (urlunparse u) r with
    ⟨t, ht, hlen, hct, hstep⟩ | ⟨hlt, hfb, hstep⟩ | ⟨hlt, hfb, hstep⟩
  · have htne : t ≠ [] := by
      intro h0
      subst h0
      simp [splitWs_nil] at hlen
    simp only [evalCandidate, hstep] at h
    rw [if_neg (by rw [hct]; rintro ⟨h1, -⟩; exact htne h1)] at h
    rw [if_neg (by decide : ¬ (strL "full" = strL "snippet"))] at h
    split at h <;> split at h <;>
      (cases h; try exact ⟨rfl, rfl, rfl, rfl, rfl, Or.inl ⟨rfl, t, ht, hlen, rfl⟩⟩)
  · simp only [evalCandidate, hstep] at h
    rw [if_neg (by rintro ⟨-, h1, -⟩; exact hfb h1)] at h
    rw [if_pos trivial] at h
    split at h <;> split at h <;>
      (cases h; try exact ⟨rfl, rfl, rfl, rfl, rfl, Or.inr ⟨rfl, hlt, rfl⟩⟩)
  · exfalso
    simp only [evalCandidate, hstep] at h
    split at h
    · exact absurd h (by simp)
    · rw [if_neg (by decide : ¬ (strL "none" = strL "snippet"))] at h
      split at h <;> split at h <;>
        first
          | (cases h;
             exact absurd
               (lt_of_lt_of_le (show (0 : ℚ) < 0.05 by norm_num) (le_max_left (0.05 : ℚ) _))
               (by assumption))
          | cases h

lemma processResult_cases (post : BlogPost) (extract : Str → Option Str)
    (sim : Str → Str → ℚ) (θ : ℚ) (st : DetState) (r : SearchResult) :
    processResult post extract sim θ st r = st
    ∨ ∃ u, candidateGate r = some u ∧ normalize_url u ∉ st.seen
        ∧ ((evalCandidate post extract sim θ u r = none
              ∧ processResult post extract sim θ st r
                  = ⟨st.findings, normalize_url u :: st.seen⟩)
           ∨ ∃ f, evalCandidate post extract sim θ u r = some f
              ∧ processResult post extract sim θ st r
                  = ⟨st.findings ++ [f], normalize_url u :: st.seen⟩) := by
  cases hg : candidateGate r with
  | none => exact Or.inl (by simp [processResult, hg])
  | some u =>
    by_cases hmem : normalize_url u ∈ st.seen
    · exact Or.inl (by simp [processResult, hg, hmem])
    · cases he : evalCandidate post extract sim θ u r with
      | none => exact Or.inr ⟨u, rfl, hmem, Or.inl ⟨he, by simp [processResult, hg, hmem, he]⟩⟩
      | some f =>
        exact Or.inr ⟨u, rfl, hmem, Or.inr ⟨f, he, by simp [processResult, hg, hmem, he]⟩⟩

lemma foldl_preserve {σ α : Type} (inv : σ → Prop) (step : σ → α → σ)
    (hstep : ∀ s a, inv s → inv (step s a)) :
    ∀ (l : List α) (s : σ), inv s → inv (l.foldl step s) := by
  intro l
  induction l with
  | nil => intro s h; exact h
  | cons a tl ih => intro s h; exact ih _ (hstep s a h)

lemma processResult_seen_mono (post : BlogPost) (extract : Str → Option Str)
    (sim : Str → Str → ℚ) (θ : ℚ) (st : DetState) (r : SearchResult) :
    st.seen ⊆ (processResult post extract sim θ st r).seen := by
  rcases processResult_cases post extract sim θ st r with h | ⟨u, -, -, ⟨-, h⟩ | ⟨f, -, h⟩⟩ <;>
    rw [h]
  · exact fun _ hx => hx
  · exact fun x hx => List.mem_cons_of_mem _ hx
  · exact fun x hx => List.mem_cons_of_mem _ hx

lemma processQuery_seen_mono (post : BlogPost) (search : Str → Nat → Option (List SerperItem))
    (extract : Str → Option Str) (sim : Str → Str → ℚ) (θ : ℚ) (mrq : Nat)
    (st : DetState) (q : Str) :
    st.seen ⊆ (processQuery post search extract sim θ mrq st q).seen := by
  rw [processQuery]
  cases search q mrq with
  | none => exact fun _ hx => hx
  | some items =>
    exact foldl_preserve (fun s => st.seen ⊆ s.seen) _
      (fun s r hs => hs.trans (processResult_seen_mono post extract sim θ s r)) _ _
      (fun _ hx => hx)

lemma processPost_seen_mono (search : Str → Nat → Option (List SerperItem))
    (extract : Str → Option Str) (sim : Str → Str → ℚ) (θ : ℚ) (mrq mqp : Nat)
    (st : DetState) (post : BlogPost) :
    st.seen ⊆ (processPost search extract sim θ mrq mqp st post).seen := by
  rw [processPost]
  exact foldl_preserve (fun s => st.seen ⊆ s.seen) _
    (fun s q hs => hs.trans (processQuery_seen_mono post search extract sim θ mrq s q)) _ _
    (fun _ hx => hx)

lemma run_seen_mono (search : Str → Nat → Option (List SerperItem))
    (extract : Str → Option Str) (sim : Str → Str → ℚ) (θ : ℚ) (mrq mqp : Nat)
    (posts : List BlogPost) (st : DetState) :
    st.seen ⊆ (posts.foldl (processPost search extract sim θ mrq mqp) st).seen :=
  foldl_preserve (fun s => st.seen ⊆ s.seen) _
    (fun s p hs => hs.trans (processPost_seen_mono search extract sim θ mrq mqp s p)) _ _
    (fun _ hx => hx)

/-- Ghost invariant for the dedup argument: the findings of a state
are the projections of a list of (finding, candidate URL) pairs whose
canonical URLs are pairwise distinct, already recorded in `seen`, and
whose stored `matched_url` is the unparse of the candidate URL. -/
def GhostInv (st : DetState) : Prop :=
  ∃ g : List (Finding × Url), g.map Prod.fst = st.findings
    ∧ (g.map (fun p => normalize_url p.2)).Nodup
    ∧ ∀ p ∈ g, normalize_url p.2 ∈ st.seen ∧ p.1.matched_url = urlunparse p.2

lemma ghostInv_processResult (post : BlogPost) (extract : Str → Option Str)
    (sim : Str → Str → ℚ) (θ : ℚ) (st : DetState) (r : SearchResult)
    (hinv : GhostInv st) : GhostInv (processResult post extract sim θ st r) := by
  rcases processResult_cases post extract sim θ st r with
    h | ⟨u, hg, hmem, ⟨he, h⟩ | ⟨f, he, h⟩⟩
  · rw [h]; exact hinv
  · rw [h]
    obtain ⟨g, h1, h2, h3⟩ := hinv
    exact ⟨g, h1, h2, fun p hp => ⟨List.mem_cons_of_mem _ (h3 p hp).1, (h3 p hp).2⟩⟩
  · rw [h]
    obtain ⟨g, h1, h2, h3⟩ := hinv
    refine ⟨g ++ [(f, u)], by simp [h1], ?_, ?_⟩
    · rw [List.map_append]
      refine List.Nodup.append h2 (List.nodup_singleton _) ?_
      intro x hx1 hx2
      simp only [List.map_cons, List.map_nil, List.mem_singleton] at hx2
      subst hx2
      obtain ⟨p, hp, hpx⟩ := List.mem_map.mp hx1
      exact hmem (hpx ▸ (h3 p hp).1)
    · intro p hp
      rcases List.mem_append.mp hp with hp | hp
      · exact ⟨List.mem_cons_of_mem _ (h3 p hp).1, (h3 p hp).2⟩
      · simp only [List.mem_singleton] at hp
        subst hp
        exact ⟨List.mem_cons_self _ _,
          (evalCandidate_some_spec post extract sim θ u r f he).2.2.2.1⟩

lemma ghostInv_processQuery (post : BlogPost) (search : Str → Nat → Option (List SerperItem))
    (extract : Str → Option Str) (sim : Str → Str → ℚ) (θ : ℚ) (mrq : Nat)
    (st : DetState) (q : Str) (hinv : GhostInv st) :
    GhostInv (processQuery post search extract sim θ mrq st q) := by
  rw [processQuery]
  cases search q mrq with
  | none => exact hinv
  | some items =>
    exact foldl_preserve GhostInv _
      (fun s r hs => ghostInv_processResult post extract sim θ s r hs) _ _ hinv

lemma ghostInv_processPost (search : Str → Nat → Option (List SerperItem))
    (extract : Str → Option Str) (sim : Str → Str → ℚ) (θ : ℚ) (mrq mqp : Nat)
    (st : DetState) (post : BlogPost) (hinv : GhostInv st) :
    GhostInv (processPost search extract sim θ mrq mqp st post) := by
  rw [processPost]
  exact foldl_preserve GhostInv _
    (fun s q hs => ghostInv_processQuery post search extract sim θ mrq s q hs) _ _ hinv

lemma ghostInv_search_run (posts : List BlogPost)
    (search : Str → Nat → Option (List SerperItem)) (extract : Str → Option Str)
    (sim : Str → Str → ℚ) (θ : ℚ) (mrq mqp : Nat) :
    GhostInv (search_run posts search extract sim θ mrq mqp) := by
  rw [search_run]
  exact foldl_preserve GhostInv _
    (fun s p hs => ghostInv_processPost search extract sim θ mrq mqp s p hs) _ _
    ⟨[], rfl, List.nodup_nil, by simp⟩

/-- Per-finding well-formedness of the match basis: a "full" tag means
the stored URL extracts to a text of at least 60 words, a "snippet"
tag means any extracted text of that URL had fewer than 60 words. -/
def FindingOk (extract : Str → Option Str) (f : Finding) : Prop :=
  (f.match_source = strL "full" →
     ∃ t, extract f.matched_url = some t ∧ 60 ≤ (splitWs t).length)
  ∧ (f.match_source = strL "snippet" →
     ∀ t, extract f.matched_url = some t → (splitWs t).length < 60)

lemma findingOk_of_eval (post : BlogPost) (extract : Str → Option Str)
    (sim : Str → Str → ℚ) (θ : ℚ) (u : Url) (r : SearchResult) (f : Finding)
    (he : evalCandidate post extract sim θ u r = some f) : FindingOk extract f := by
  obtain ⟨-, -, -, hurl, -, hsrc⟩ := evalCandidate_some_spec post extract sim θ u r f he
  rcases hsrc with ⟨hs, t, ht, hlen, -⟩ | ⟨hs, hlt, -⟩
  · constructor
    · exact fun _ => ⟨t, by rw [hurl]; exact ht, hlen⟩
    · intro hsnip
      exact absurd (hs.symm.trans hsnip) (by decide)
  · constructor
    · intro hfull
      exact absurd (hs.symm.trans hfull) (by decide)
    · exact fun _ t ht => hlt t (by rw [hurl] at ht; exact ht)

lemma findingOk_processResult (post : BlogPost) (extract : Str → Option Str)
    (sim : Str → Str → ℚ) (θ : ℚ) (st : DetState) (r : SearchResult)
    (hinv : ∀ f ∈ st.findings, FindingOk extract f) :
    ∀ f ∈ (processResult post extract sim θ st r).findings, FindingOk extract f := by
  rcases processResult_cases post extract sim θ st r with
    h | ⟨u, -, -, ⟨-, h⟩ | ⟨f0, he, h⟩⟩ <;> rw [h]
  · exact hinv
  · exact hinv
  · intro f hf
    rcases List.mem_append.mp hf with hf | hf
    · exact hinv f hf
    · rw [List.mem_singleton] at hf
      subst hf
      exact findingOk_of_eval post extract sim θ u r f he

lemma findingOk_run (posts : List BlogPost) (search : Str → Nat → Option (List SerperItem))
    (extract : Str → Option Str) (sim : Str → Str → ℚ) (θ : ℚ) (mrq mqp : Nat) :
    ∀ f ∈ (search_run posts search extract sim θ mrq mqp).findings, FindingOk extract f := by
  rw [search_run]
  refine foldl_preserve (fun (s : DetState) => ∀ f ∈ s.findings, FindingOk extract f) _ ?_ _ _ (by simp)
  intro s post hs
  rw [processPost]
  refine foldl_preserve (fun (s : DetState) => ∀ f ∈ s.findings, FindingOk extract f) _ ?_ _ _ hs
  intro s' q hs'
  rw [processQuery]
  cases search q mrq with
  | none => exact hs'
  | some items =>
    exact foldl_preserve (fun (s : DetState) => ∀ f ∈ s.findings, FindingOk extract f) _
      (fun s'' r hr => findingOk_processResult post extract sim θ s'' r hr) _ _ hs'

/-- Provenance of findings relative to a starting state: the seen set
only grows, and every new finding comes from a candidate whose
canonical URL was not seen when the run started from that state. -/
def NewFrom (st0 s : DetState) : Prop :=
  st0.seen ⊆ s.seen
  ∧ ∀ f ∈ s.findings, f ∈ st0.findings
      ∨ ∃ u, f.matched_url = urlunparse u ∧ normalize_url u ∉ st0.seen

lemma newFrom_processResult (post : BlogPost) (extract : Str → Option Str)
    (sim : Str → Str → ℚ) (θ : ℚ) (st0 s : DetState) (r : SearchResult)
    (hinv : NewFrom st0 s) : NewFrom st0 (processResult post extract sim θ s r) := by
  obtain ⟨hseen, hfind⟩ := hinv
  refine ⟨hseen.trans (processResult_seen_mono post extract sim θ s r), ?_⟩
  rcases processResult_cases post extract sim θ s r with
    h | ⟨u, -, hmem, ⟨-, h⟩ | ⟨f0, he, h⟩⟩ <;> rw [h]
  · exact hfind
  · exact hfind
  · intro f hf
    rcases List.mem_append.mp hf with hf | hf
    · exact hfind f hf
    · rw [List.mem_singleton] at hf
      subst hf
      refine Or.inr ⟨u, (evalCandidate_some_spec post extract sim θ u r f he).2.2.2.1, ?_⟩
      exact fun hx => hmem (hseen hx)

lemma newFrom_run (posts : List BlogPost) (search : Str → Nat → Option (List SerperItem))
    (extract : Str → Option Str) (sim : Str → Str → ℚ) (θ : ℚ) (mrq mqp : Nat)
    (st : DetState) :
    NewFrom st (posts.foldl (processPost search extract sim θ mrq mqp) st) := by
  refine foldl_preserve (NewFrom st) _ ?_ _ _ ⟨fun _ hx => hx, fun f hf => Or.inl hf⟩
  intro s post hs
  rw [processPost]
  refine foldl_preserve (NewFrom st) _ ?_ _ _ hs
  intro s' q hs'
  rw [processQuery]
  cases search q mrq with
  | none => exact hs'
  | some items =>
    exact foldl_preserve (NewFrom st) _
      (fun s'' r hr => newFrom_processResult post extract sim θ st s'' r hr) _ _ hs'

/-! ### Claim theorems about the detection pipeline -/

/-- A concrete blog post used in counterexamples and witnesses. -/
def cexPost : BlogPost := ⟨strL "abc", strL "https://leonardasrdelic.github.io/post", strL ""⟩

/-- A concrete target-domain candidate URL (host index.hr). -/
def cexUrl : Url := ⟨strL "https", strL "www.index.hr", strL "/clanak", [], [], []⟩

/-- A concrete Serper result pointing at the target-domain URL. -/
def cexItem : SerperItem := ⟨strL "Clanak", some cexUrl, strL "sazetak"⟩

/-- A 60-word extracted text (clears both word-count gates). -/
def cexText : Str := joinSpace (List.replicate 60 (strL "rijec"))

set_option maxRecDepth 100000 in
/-- C3 (counterexample).  A candidate on a target domain with a
not-previously-seen canonical URL, displayable evidence, and a 60-word
extracted text, but similarity 0, produces NO finding: domain
membership alone does not suffice for acceptance. -/
theorem search_target_low_similarity_cex :
    (TARGET_DOMAINS.any fun d => isInfixL d (urlunparse cexUrl)) = true
    ∧ search_for_reposts [cexPost] (fun _ _ => some [cexItem]) (fun _ => some cexText)
        (fun _ _ => 0) 0.6 15 25 = [] := by
  with_unfolding_all decide

/-- C3 (amended).  For a target-domain candidate the decision is
purely a threshold test — domain membership lowers the effective
threshold to `max 0.05 (θ - 0.15)` but never substitutes for
similarity.  With a full-text basis (extraction of at least 60 words)
the bar is the effective threshold; with the snippet fallback
(extraction failed or under 60 words, displayable title+snippet
evidence) the bar is the effective threshold plus the 0.05 snippet
margin. -/
theorem target_domain_lowers_threshold_only :
    (∀ (post : BlogPost) (extract : Str → Option Str) (sim : Str → Str → ℚ) (θ : ℚ)
       (u : Url) (r : SearchResult) (t : Str),
       (TARGET_DOMAINS.any fun d => isInfixL d (urlunparse u)) = true →
       extract (urlunparse u) = some t → 60 ≤ (splitWs t).length →
       evalCandidate post extract sim θ u r
         = if sim post.text t < max 0.05 (θ - 0.15) then none
           else some ⟨post.title, post.url, r.name, urlunparse u, r.snippet,
               sim post.text t, strL "full"⟩)
    ∧ (∀ (post : BlogPost) (extract : Str → Option Str) (sim : Str → Str → ℚ) (θ : ℚ)
       (u : Url) (r : SearchResult),
       (TARGET_DOMAINS.any fun d => isInfixL d (urlunparse u)) = true →
       (∀ t, extract (urlunparse u) = some t → (splitWs t).length < 60) →
       fallback_text r ≠ [] →
       evalCandidate post extract sim θ u r
         = if sim post.text (fallback_text r) < max 0.05 (θ - 0.15) + 0.05 then none
           else some ⟨post.title, post.url, r.name, urlunparse u, r.snippet,
               sim post.text (fallback_text r), strL "snippet"⟩) := by
  constructor
  · intro post extract sim θ u r t htd hext hlen
    rcases simStep_cases post extract sim (urlunparse u) r with
      ⟨t', ht', hlen', hct, hstep⟩ | ⟨hlt, -, -⟩ | ⟨hlt, -, -⟩
    · rw [hext] at ht'
      injection ht' with hE
      subst hE
      have htne : t ≠ [] := by
        intro h0
        rw [h0] at hlen'
        simp [splitWs_nil] at hlen'
      simp only [evalCandidate, hstep]
      rw [if_neg (by rw [hct]; rintro ⟨h1, -⟩; exact htne h1)]
      rw [if_neg (by decide : ¬ (strL "full" = strL "snippet"))]
      rw [if_pos htd]
    · exact absurd (hlt t hext) (by omega)
    · exact absurd (hlt t hext) (by omega)
  · intro post extract sim θ u r htd hshort hfb
    rcases simStep_cases post extract sim (urlunparse u) r with
      ⟨t', ht', hlen', -, -⟩ | ⟨-, -, hstep⟩ | ⟨-, hfb', -⟩
    · exact absurd hlen' (by have := hshort t' ht'; omega)
    · simp only [evalCandidate, hstep]
      rw [if_neg (by rintro ⟨-, h1, -⟩; exact hfb h1)]
      rw [if_pos trivial]
      rw [if_pos htd]
    · exact absurd hfb' hfb

/-- C3 (witness): on the concrete target-domain candidate with
similarity 0 and threshold 0.6, the candidate evaluation rejects on
both bases — with a 60-word extraction (full basis, bar 0.45) and
with a failed extraction (snippet fallback, bar 0.50). -/
theorem target_domain_lowers_threshold_only_witness :
    evalCandidate cexPost (fun _ => some cexText) (fun _ _ => 0) 0.6 cexUrl
      ⟨strL "Clanak", some cexUrl, strL "sazetak"⟩ = none
    ∧ evalCandidate cexPost (fun _ => none) (fun _ _ => 0) 0.6 cexUrl
      ⟨strL "Clanak", some cexUrl, strL "sazetak"⟩ = none := by
  constructor
  · rw [target_domain_lowers_threshold_only.1 cexPost (fun _ => some cexText) (fun _ _ => 0)
        0.6 cexUrl ⟨strL "Clanak", some cexUrl, strL "sazetak"⟩ cexText
        (by with_unfolding_all decide) rfl (by decide)]
    rw [if_pos (lt_of_lt_of_le (show (0 : ℚ) < 0.6 - 0.15 by norm_num) (le_max_right _ _))]
  · rw [target_domain_lowers_threshold_only.2 cexPost (fun _ => none) (fun _ _ => 0)
        0.6 cexUrl ⟨strL "Clanak", some cexUrl, strL "sazetak"⟩
        (by with_unfolding_all decide) (fun t ht => by cases ht) (by decide)]
    rw [if_pos (lt_of_lt_of_le (show (0 : ℚ) < 0.6 - 0.15 + 0.05 by norm_num)
        (add_le_add_right (le_max_right _ _) _))]

/-- Two URLs that differ only in host capitalisation, fragment, or
trailing slashes of the path. -/
def UrlDiffTrivial (u v : Url) : Prop :=
  u.scheme = v.scheme ∧ lowerL u.netloc = lowerL v.netloc
  ∧ rstripSlash u.path = rstripSlash v.path ∧ u.params = v.params ∧ u.query = v.query

instance (u v : Url) : Decidable (UrlDiffTrivial u v) := by
  unfold UrlDiffTrivial
  infer_instance

/-- C8 (confirmed).  Every run's findings project from a ghost list of
(finding, candidate URL) pairs whose canonical URLs are pairwise
distinct and whose stored `matched_url` is the candidate's unparse; and
canonicalisation identifies URLs differing only in host case, fragment,
or trailing slashes (an empty path becomes "/", inside
`normalize_url`).  Hence at most one finding per canonical URL. -/
theorem findings_canonical_unique :
    (∀ (posts : List BlogPost) (search : Str → Nat → Option (List SerperItem))
       (extract : Str → Option Str) (sim : Str → Str → ℚ) (θ : ℚ) (mrq mqp : Nat),
       ∃ g : List (Finding × Url),
         g.map Prod.fst = search_for_reposts posts search extract sim θ mrq mqp
         ∧ (g.map (fun p => normalize_url p.2)).Nodup
         ∧ ∀ p ∈ g, p.1.matched_url = urlunparse p.2)
    ∧ ∀ u v : Url, UrlDiffTrivial u v → normalize_url u = normalize_url v := by
  constructor
  · intro posts search extract sim θ mrq mqp
    obtain ⟨g, h1, h2, h3⟩ := ghostInv_search_run posts search extract sim θ mrq mqp
    exact ⟨g, h1, h2, fun p hp => (h3 p hp).2⟩
  · rintro u v ⟨h1, h2, h3, h4, h5⟩
    rw [normalize_url, normalize_url, h1, h2, h3, h4, h5]

/-- C8 (witness): the ghost list exists for a concrete run, and two
concrete URLs differing in host case, a fragment, and a trailing slash
share their canonical URL. -/
theorem findings_canonical_unique_witness :
    (∃ g : List (Finding × Url),
       g.map Prod.fst = search_for_reposts [] (fun _ _ => none) (fun _ => none)
         (fun _ _ => 0) 0.6 15 25
       ∧ (g.map (fun p => normalize_url p.2)).Nodup
       ∧ ∀ p ∈ g, p.1.matched_url = urlunparse p.2)
    ∧ normalize_url ⟨strL "https", strL "WWW.Index.hr", strL "/a/", [], [], strL "frag"⟩
        = normalize_url ⟨strL "https", strL "www.index.hr", strL "/a", [], [], []⟩ :=
  ⟨findings_canonical_unique.1 [] (fun _ _ => none) (fun _ => none) (fun _ _ => 0) 0.6 15 25,
   findings_canonical_unique.2
     ⟨strL "https", strL "WWW.Index.hr", strL "/a/", [], [], strL "frag"⟩
     ⟨strL "https", strL "www.index.hr", strL "/a", [], [], []⟩ (by decide)⟩

/-- C9 (confirmed).  Every finding tagged "full" comes from an
extraction of its URL with at least 60 words, every finding tagged
"snippet" from a URL whose extraction (if any) had under 60 words; and
a candidate whose extraction succeeded with under 60 words can only be
emitted with basis "snippet", its similarity computed against the
joined title+snippet fallback. -/
theorem match_basis_full_min_words :
    (∀ (posts : List BlogPost) (search : Str → Nat → Option (List SerperItem))
       (extract : Str → Option Str) (sim : Str → Str → ℚ) (θ : ℚ) (mrq mqp : Nat),
       ∀ f ∈ search_for_reposts posts search extract sim θ mrq mqp,
         (f.match_source = strL "full" →
            ∃ t, extract f.matched_url = some t ∧ 60 ≤ (splitWs t).length)
         ∧ (f.match_source = strL "snippet" →
            ∀ t, extract f.matched_url = some t → (splitWs t).length < 60))
    ∧ (∀ (post : BlogPost) (extract : Str → Option Str) (sim : Str → Str → ℚ) (θ : ℚ)
        (u : Url) (r : SearchResult) (t : Str) (f : Finding),
        extract (urlunparse u) = some t → (splitWs t).length < 60 →
        evalCandidate post extract sim θ u r = some f →
        f.match_source = strL "snippet"
          ∧ f.similarity = sim post.text (fallback_text r)) := by
  constructor
  · intro posts search extract sim θ mrq mqp f hf
    exact findingOk_run posts search extract sim θ mrq mqp f hf
  · intro post extract sim θ u r t f hext hlen he
    obtain ⟨-, -, -, -, -, hsrc⟩ := evalCandidate_some_spec post extract sim θ u r f he
    rcases hsrc with ⟨-, t', ht', hlen', -⟩ | ⟨hs, -, hsim⟩
    · rw [hext] at ht'
      injection ht' with hE
      subst hE
      omega
    · exact ⟨hs, hsim⟩

set_option maxRecDepth 100000 in
/-- C9 (witness): a concrete run that emits one finding; the theorem
applies to it, and the "full" clause is realised by the 60-word
extraction. -/
theorem match_basis_full_min_words_witness :
    (⟨strL "abc", strL "https://leonardasrdelic.github.io/post", strL "Clanak",
        strL "https://www.index.hr/clanak", strL "sazetak", 1, strL "full"⟩ : Finding)
      ∈ search_for_reposts [cexPost] (fun _ _ => some [cexItem]) (fun _ => some cexText)
          (fun _ _ => 1) 0.6 15 25
    ∧ ((⟨strL "abc", strL "https://leonardasrdelic.github.io/post", strL "Clanak",
          strL "https://www.index.hr/clanak", strL "sazetak", 1, strL "full"⟩ : Finding).match_source
          = strL "full" →
        ∃ t, (fun _ => some cexText) (strL "https://www.index.hr/clanak") = some t
          ∧ 60 ≤ (splitWs t).length) :=
  ⟨by with_unfolding_all decide,
   fun h => (match_basis_full_min_words.1 [cexPost] (fun _ _ => some [cexItem])
      (fun _ => some cexText) (fun _ _ => 1) 0.6 15 25 _
      (by with_unfolding_all decide)).1 h⟩

/-- C10 (confirmed).  (1) A candidate whose canonical URL is already
in `seen` leaves the state untouched (not re-evaluated, nothing
emitted); (2) a candidate passing the initial checks has its canonical
URL in `seen` afterwards whatever the similarity decision was (the add
happens before the threshold test); (3) the seen set only grows over
the rest of the run, across queries and posts; (4) every finding added
after a state comes from a candidate whose canonical URL was not in
that state's seen set. -/
theorem seen_url_never_reprocessed :
    (∀ (post : BlogPost) (extract : Str → Option Str) (sim : Str → Str → ℚ) (θ : ℚ)
       (st : DetState) (r : SearchResult) (u : Url), candidateGate r = some u →
       normalize_url u ∈ st.seen → processResult post extract sim θ st r = st)
    ∧ (∀ (post : BlogPost) (extract : Str → Option Str) (sim : Str → Str → ℚ) (θ : ℚ)
       (st : DetState) (r : SearchResult) (u : Url), candidateGate r = some u →
       normalize_url u ∈ (processResult post extract sim θ st r).seen)
    ∧ (∀ (search : Str → Nat → Option (List SerperItem)) (extract : Str → Option Str)
       (sim : Str → Str → ℚ) (θ : ℚ) (mrq mqp : Nat) (posts : List BlogPost)
       (st : DetState),
       st.seen ⊆ (posts.foldl (processPost search extract sim θ mrq mqp) st).seen)
    ∧ (∀ (search : Str → Nat → Option (List SerperItem)) (extract : Str → Option Str)
       (sim : Str → Str → ℚ) (θ : ℚ) (mrq mqp : Nat) (posts : List BlogPost)
       (st : DetState),
       ∀ f ∈ (posts.foldl (processPost search extract sim θ mrq mqp) st).findings,
         f ∈ st.findings
         ∨ ∃ u, f.matched_url = urlunparse u ∧ normalize_url u ∉ st.seen) := by
  refine ⟨?_, ?_, ?_, ?_⟩
  · intro post extract sim θ st r u hg hmem
    rw [processResult, hg]
    simp [hmem]
  · intro post extract sim θ st r u hg
    rw [processResult, hg]
    by_cases hmem : normalize_url u ∈ st.seen
    · simp [hmem]
    · cases he : evalCandidate post extract sim θ u r <;>
        simp [hmem, he, List.mem_cons_self]
  · intro search extract sim θ mrq mqp posts st
    exact run_seen_mono search extract sim θ mrq mqp posts st
  · intro search extract sim θ mrq mqp posts st
    exact (newFrom_run posts search extract sim θ mrq mqp st).2

/-- C10 (witness): concrete applications — a candidate with an
already-seen canonical URL is skipped wholesale; a fresh candidate's
canonical URL is recorded even though the similarity 0 decision
rejects it. -/
theorem seen_url_never_reprocessed_witness :
    processResult cexPost (fun _ => some cexText) (fun _ _ => 0) 0.6
        ⟨[], [normalize_url cexUrl]⟩ ⟨strL "Clanak", some cexUrl, strL "sazetak"⟩
      = ⟨[], [normalize_url cexUrl]⟩
    ∧ normalize_url cexUrl
      ∈ (processResult cexPost (fun _ => some cexText) (fun _ _ => 0) 0.6
          ⟨[], []⟩ ⟨strL "Clanak", some cexUrl, strL "sazetak"⟩).seen
    ∧ ((⟨[], []⟩ : DetState).seen
        ⊆ (([] : List BlogPost).foldl
            (processPost (fun _ _ => none) (fun _ => none) (fun _ _ => 0) 0.6 15 25)
            ⟨[], []⟩).seen) :=
  ⟨seen_url_never_reprocessed.1 cexPost (fun _ => some cexText) (fun _ _ => 0) 0.6
      ⟨[], [normalize_url cexUrl]⟩ ⟨strL "Clanak", some cexUrl, strL "sazetak"⟩ cexUrl
      (by with_unfolding_all decide) (by with_unfolding_all decide),
   seen_url_never_reprocessed.2.1 cexPost (fun _ => some cexText) (fun _ _ => 0) 0.6
      ⟨[], []⟩ ⟨strL "Clanak", some cexUrl, strL "sazetak"⟩ cexUrl
      (by with_unfolding_all decide),
   seen_url_never_reprocessed.2.2.1 (fun _ _ => none) (fun _ => none) (fun _ _ => 0) 0.6
      15 25 [] ⟨[], []⟩⟩
